import Mathlib

/-!
Verification of the two micro-programs in this repository:

* `loop.c` ("BufferFill"): allocates a `BUFSIZE = 1024 * 1024` byte buffer
  with `malloc` and runs `for (uint64_t i = 0; i < BUFSIZE; i++) dest[i] = (uint8_t) i;`.
* `mach_absolute_time.c` ("TimeReader"): reads the platform monotonic counter
  once into a `uint64_t` and executes `printf("Time is %llu\n", time); return 0;`.

The embedding models the byte buffer as `Nat → Option Nat` (`none` = the byte
was never written, mirroring uninitialized `malloc` memory), the fill loop as a
recursive state-passing function decreasing on `BUFSIZE - i`, the `(uint8_t)`
cast as `% 256`, and `printf`'s `%llu` rendering as the standard divmod-by-10
digit loop.  `malloc` failure is modelled by running the program against a
`Bool` allocation outcome; the source has no null check, so the failing branch
has no defined result (`Except.error`).
-/

/-- `#define BUFSIZE 1024 * 1024` from `loop.c`. -/
def BUFSIZE : Nat := 1024 * 1024

lemma BUFSIZE_eq : BUFSIZE = 1048576 := by norm_num [BUFSIZE]

/-- One byte store `dest[off] = v` into the buffer. -/
def store (buf : Nat → Option Nat) (off v : Nat) : Nat → Option Nat :=
  fun j => if j = off then some v else buf j

/-- The fill loop of `loop.c`: `for (uint64_t i = 0; i < BUFSIZE; i++) dest[i] = (uint8_t) i;`.
The `uint8_t` cast truncates to `i % 256`.  (The 64-bit index never overflows:
it stays below `BUFSIZE < 2^64`.) -/
def fillLoop (i : Nat) (buf : Nat → Option Nat) : Nat → Option Nat :=
  if h : i < BUFSIZE then fillLoop (i + 1) (store buf i (i % 256)) else buf
termination_by BUFSIZE - i
decreasing_by omega

/-- The buffer state after `main` of `loop.c` runs its loop over freshly
`malloc`ed (uninitialized, all-`none`) memory. -/
def mainBuf : Nat → Option Nat := fillLoop 0 (fun _ => none)

/-- The trace of stores `(offset, value)` issued by the fill loop starting at
index `i`, in program order. -/
def fillTraceFrom (i : Nat) : List (Nat × Nat) :=
  if h : i < BUFSIZE then (i, i % 256) :: fillTraceFrom (i + 1) else []
termination_by BUFSIZE - i
decreasing_by omega

/-- The complete store trace of `loop.c`'s fill loop (index starts at 0). -/
def fillTrace : List (Nat × Nat) := fillTraceFrom 0

/-- The byte count passed to the single `malloc` call in `loop.c`. -/
def allocRequestSize : Nat := BUFSIZE

/-- `loop.c`'s `main` run against an allocation outcome: the source performs no
null check, so when `malloc` fails there is no defined result. -/
def bufferFillRun (allocOk : Bool) : Except Unit (Nat → Option Nat) :=
  if allocOk then Except.ok mainBuf else Except.error ()

lemma fillLoop_spec :
    ∀ d i buf j, BUFSIZE - i = d →
      fillLoop i buf j = if i ≤ j ∧ j < BUFSIZE then some (j % 256) else buf j := by
  intro d
  induction d with
  | zero =>
    intro i buf j hd
    have hi : ¬ i < BUFSIZE := by omega
    rw [fillLoop, dif_neg hi, if_neg (by omega)]
  | succ d ih =>
    intro i buf j hd
    have hi : i < BUFSIZE := by omega
    rw [fillLoop, dif_pos hi, ih (i + 1) _ j (by omega)]
    by_cases hj1 : i + 1 ≤ j ∧ j < BUFSIZE
    · rw [if_pos hj1, if_pos (by omega)]
    · rw [if_neg hj1]
      by_cases hj2 : i ≤ j ∧ j < BUFSIZE
      · have hji : j = i := by omega
        rw [if_pos hj2, store, if_pos hji, hji]
      · rw [if_neg hj2, store, if_neg (by omega)]

lemma fillTraceFrom_spec :
    ∀ d i, BUFSIZE - i = d →
      fillTraceFrom i = (List.range' i d).map (fun j => (j, j % 256)) := by
  intro d
  induction d with
  | zero =>
    intro i hd
    rw [fillTraceFrom, dif_neg (by omega)]
    rfl
  | succ d ih =>
    intro i hd
    rw [fillTraceFrom, dif_pos (by omega), ih (i + 1) (by omega), List.range'_succ]
    rfl

lemma fillTrace_eq :
    fillTrace = (List.range BUFSIZE).map (fun j => (j, j % 256)) := by
  rw [fillTrace, fillTraceFrom_spec BUFSIZE 0 (Nat.sub_zero BUFSIZE), List.range_eq_range']

lemma fillTrace_length : fillTrace.length = 1048576 := by
  rw [fillTrace_eq, List.length_map, List.length_range, BUFSIZE_eq]

lemma zero_mem_fillTrace : (0, 0) ∈ fillTrace := by
  rw [fillTrace_eq]
  exact List.mem_map.mpr ⟨0, List.mem_range.mpr (by rw [BUFSIZE_eq]; norm_num), rfl⟩

/-- ASCII digit character, as `printf` emits: `'0' + d`. -/
def digitChar (d : Nat) : Char := Char.ofNat (48 + d)

/-- The divmod-by-10 digit loop behind `printf("%llu", n)`: peel the low digit,
recurse on `n / 10`, accumulate most-significant-first.  The fuel argument
(`n + 1` at the top call) only bounds the recursion depth; it is never
exhausted since a number has at most `n + 1` decimal digits. -/
def decDigitsCore : Nat → Nat → List Char → List Char
  | 0, _, acc => acc
  | fuel + 1, n, acc =>
    if n < 10 then digitChar n :: acc
    else decDigitsCore fuel (n / 10) (digitChar (n % 10) :: acc)

/-- Base-10 rendering of an unsigned value, as `printf`'s `%llu` produces. -/
def renderDec (n : Nat) : String := String.mk (decDigitsCore (n + 1) n [])

/-- Parse a decimal string back to a number (specification-side inverse of
`renderDec`). -/
def decodeDec (s : String) : Nat :=
  s.data.foldl (fun a c => a * 10 + (c.toNat - 48)) 0

/-- `mach_absolute_time.c`'s `main`, as a function of the `uint64_t` counter
value the single timer read returns: the pair (standard output, exit status) of
`printf("Time is %llu\n", time); return 0;`. -/
def timeReaderRun (time : Nat) : String × Nat :=
  ("Time is " ++ renderDec time ++ "\n", 0)

lemma digitChar_toNat (d : Nat) (hd : d < 10) : (digitChar d).toNat = 48 + d := by
  interval_cases d <;> decide

lemma digitChar_isDigit (d : Nat) (hd : d < 10) : (digitChar d).isDigit = true := by
  interval_cases d <;> decide

lemma digitChar_eq_natDigitChar (d : Nat) (hd : d < 10) :
    digitChar d = Nat.digitChar d := by
  interval_cases d <;> decide

lemma decDigitsCore_append (fuel : Nat) :
    ∀ n acc, decDigitsCore fuel n acc = decDigitsCore fuel n [] ++ acc := by
  induction fuel with
  | zero => intro n acc; rfl
  | succ fuel ih =>
    intro n acc
    by_cases h : n < 10
    · simp [decDigitsCore, h]
    · simp only [decDigitsCore, if_neg h]
      rw [ih (n / 10) (digitChar (n % 10) :: acc), ih (n / 10) [digitChar (n % 10)]]
      simp

lemma decDigitsCore_decode (fuel : Nat) :
    ∀ n, n < fuel →
      (decDigitsCore fuel n []).foldl (fun a c => a * 10 + (c.toNat - 48)) 0 = n := by
  induction fuel with
  | zero => intro n hn; omega
  | succ fuel ih =>
    intro n hn
    by_cases h : n < 10
    · simp [decDigitsCore, h, digitChar_toNat n h]
    · have hrw : decDigitsCore (fuel + 1) n []
          = decDigitsCore fuel (n / 10) [] ++ [digitChar (n % 10)] := by
        simp only [decDigitsCore, if_neg h]
        exact decDigitsCore_append fuel (n / 10) [digitChar (n % 10)]
      rw [hrw, List.foldl_append, ih (n / 10) (by omega)]
      simp only [List.foldl_cons, List.foldl_nil,
        digitChar_toNat (n % 10) (Nat.mod_lt n (by norm_num))]
      omega

lemma decDigitsCore_digits (fuel : Nat) :
    ∀ n acc, (∀ c ∈ acc, c.isDigit = true) →
      ∀ c ∈ decDigitsCore fuel n acc, c.isDigit = true := by
  induction fuel with
  | zero => intro n acc hacc; exact hacc
  | succ fuel ih =>
    intro n acc hacc c hc
    by_cases h : n < 10
    · simp only [decDigitsCore, if_pos h] at hc
      rcases List.mem_cons.mp hc with rfl | hc
      · exact digitChar_isDigit n h
      · exact hacc c hc
    · simp only [decDigitsCore, if_neg h] at hc
      refine ih (n / 10) (digitChar (n % 10) :: acc) ?_ c hc
      intro c' hc'
      rcases List.mem_cons.mp hc' with rfl | hc'
      · exact digitChar_isDigit _ (Nat.mod_lt n (by norm_num))
      · exact hacc c' hc'

lemma decDigitsCore_eq_toDigitsCore (fuel : Nat) :
    ∀ n acc, decDigitsCore fuel n acc = Nat.toDigitsCore 10 fuel n acc := by
  induction fuel with
  | zero => intro n acc; rfl
  | succ fuel ih =>
    intro n acc
    by_cases h : n < 10
    · have h0 : n / 10 = 0 := Nat.div_eq_of_lt h
      simp only [decDigitsCore, if_pos h, Nat.toDigitsCore, h0, if_pos rfl]
      rw [Nat.mod_eq_of_lt h, digitChar_eq_natDigitChar n h]
      simp
    · have h0 : ¬ n / 10 = 0 := by omega
      simp only [decDigitsCore, if_neg h, Nat.toDigitsCore, if_neg h0]
      rw [ih, digitChar_eq_natDigitChar (n % 10) (Nat.mod_lt n (by norm_num))]

lemma renderDec_eq_repr (n : Nat) : renderDec n = Nat.repr n := by
  rw [renderDec, Nat.repr, Nat.toDigits, decDigitsCore_eq_toDigitsCore]
  rfl

lemma decodeDec_renderDec (n : Nat) : decodeDec (renderDec n) = n := by
  rw [decodeDec, renderDec]
  exact decDigitsCore_decode (n + 1) n (Nat.lt_succ_self n)

/-- The externally observable effects of one process run: standard output,
exit status, files persisted, environment variables mutated, and the trace of
memory writes into the allocated buffer. -/
structure RunEffects where
  stdout : String
  exitCode : Nat
  persistedFiles : List String
  envMutations : List String
  memWrites : List (Nat × Nat)

/-- Effects of one run of `loop.c`: no `printf` or other output call appears in
the source, `main` falls off its end (exit status 0 per C99), no file or
environment syscall is made, and the loop issues exactly the stores of
`fillTrace`. -/
def bufferFillEffects : RunEffects :=
  { stdout := ""
    exitCode := 0
    persistedFiles := []
    envMutations := []
    memWrites := fillTrace }

/-- Effects of one run of `mach_absolute_time.c`, as a function of the counter
value read: the single `printf` line, `return 0`, no file or environment
syscall, no buffer writes. -/
def timeReaderEffects (time : Nat) : RunEffects :=
  { stdout := (timeReaderRun time).1
    exitCode := (timeReaderRun time).2
    persistedFiles := []
    envMutations := []
    memWrites := [] }

/-- Modelled from the spec: the implementation of `mach_absolute_time` is not
part of this repository (only its caller is), so the platform counter is
modelled per the spec's monotonic-clock contract as a read of a counter stream
that never decreases over read times. -/
def machAbsoluteTime (counter : Nat → Nat) (t : Nat) : Nat := counter t

/-- Claim C1: after the fill loop of `loop.c` completes, for every index `i` in
`[0, 1048576)` the byte at offset `i` of the allocated buffer equals
`i mod 256`. -/
theorem bufferFill_completeness (i : Nat) (hi : i < 1048576) :
    mainBuf i = some (i % 256) := by
  have hB := BUFSIZE_eq
  rw [mainBuf, fillLoop_spec BUFSIZE 0 _ i (Nat.sub_zero BUFSIZE), if_pos (by omega)]

theorem bufferFill_completeness_witness :
    5 < 1048576 ∧ mainBuf 5 = some (5 % 256) :=
  ⟨by norm_num, bufferFill_completeness 5 (by norm_num)⟩

/-- Claim C2: for every 64-bit counter value `v`, TimeReader writes exactly one
line consisting of `Time is `, the base-10 decimal rendering of `v`, and a
newline, and exits with status 0.  The rendering is genuinely the decimal one:
it coincides with the canonical decimal rendering `Nat.repr`, decodes back to
`v`, and consists of decimal digits only. -/
theorem timeReader_output_format (v : Nat) (hv : v < 2 ^ 64) :
    timeReaderRun v = ("Time is " ++ renderDec v ++ "\n", 0) ∧
    renderDec v = Nat.repr v ∧
    decodeDec (renderDec v) = v ∧
    ∀ c ∈ (renderDec v).data, c.isDigit = true := by
  refine ⟨rfl, renderDec_eq_repr v, decodeDec_renderDec v, ?_⟩
  exact decDigitsCore_digits (v + 1) v [] (by intro c hc; cases hc)

theorem timeReader_output_format_witness :
    (123456789 < 2 ^ 64 ∧ timeReaderRun 123456789 = ("Time is 123456789\n", 0)) ∧
    (0 < 2 ^ 64 ∧ timeReaderRun 0 = ("Time is 0\n", 0)) := by
  constructor
  · refine ⟨by norm_num, ?_⟩
    rw [(timeReader_output_format 123456789 (by norm_num)).1]
    decide
  · refine ⟨by norm_num, ?_⟩
    rw [(timeReader_output_format 0 (by norm_num)).1]
    decide

/-- Claim C3: the single heap allocation request of `loop.c` is for exactly
1,048,576 bytes; the program takes no input, and `allocRequestSize` depends on
nothing. -/
theorem bufferFill_allocation_size : allocRequestSize = 1048576 := by
  rw [allocRequestSize, BUFSIZE_eq]

/-- Claim C4: the fill loop's store trace is exactly
`(0, 0 % 256), (1, 1 % 256), ..., (1048575, 1048575 % 256)` in that order, and
its offsets are strictly increasing. -/
theorem bufferFill_write_sequence :
    fillTrace = (List.range 1048576).map (fun i => (i, i % 256)) ∧
    List.Pairwise (fun a b : Nat × Nat => a.1 < b.1) fillTrace := by
  have h : fillTrace = (List.range 1048576).map (fun i => (i, i % 256)) := by
    rw [fillTrace_eq, BUFSIZE_eq]
  refine ⟨h, ?_⟩
  rw [h, List.pairwise_map]
  simpa using List.pairwise_lt_range 1048576

/-- Claim C5: two successive reads of the monotonic counter within one run
produce non-decreasing values.  The counter implementation is not part of this
repository; it is modelled from the spec's monotonic-clock contract as a
monotone stream `counter` sampled at read times. -/
theorem timeReader_monotonic_reads (counter : Nat → Nat) (hmono : Monotone counter)
    (t1 t2 : Nat) (h : t1 ≤ t2) :
    machAbsoluteTime counter t1 ≤ machAbsoluteTime counter t2 := hmono h

theorem timeReader_monotonic_reads_witness :
    Monotone (fun t : Nat => t) ∧
    machAbsoluteTime (fun t : Nat => t) 0 ≤ machAbsoluteTime (fun t : Nat => t) 1 :=
  ⟨monotone_id, timeReader_monotonic_reads _ monotone_id 0 1 (by norm_num)⟩

/-- Claim C6: `loop.c` has no null check on the `malloc` result: when the
allocation fails, the run has no defined result — no code branch handles the
failure, so the model yields `Except.error` and a buffer state exists only
under the allocation-success precondition. -/
theorem bufferFill_alloc_failure_unhandled (ok : Bool) (h : ok = false) :
    bufferFillRun ok = Except.error () := by
  subst h
  rfl

theorem bufferFill_alloc_failure_unhandled_witness :
    false = false ∧ bufferFillRun false = Except.error () :=
  ⟨rfl, bufferFill_alloc_failure_unhandled false rfl⟩

/-- Claim C7: runs are independent.  BufferFill's final byte at any in-range
offset is the same regardless of the (uninitialized, run-varying) initial
memory contents; TimeReader's output is a deterministic function of the single
clock value read; and neither program persists files or mutates the
environment. -/
theorem run_independence (init1 init2 : Nat → Option Nat) (i : Nat)
    (hi : i < BUFSIZE) (v1 v2 : Nat) (hv : v1 = v2) :
    fillLoop 0 init1 i = fillLoop 0 init2 i ∧
    timeReaderRun v1 = timeReaderRun v2 ∧
    bufferFillEffects.persistedFiles = [] ∧
    bufferFillEffects.envMutations = [] ∧
    (timeReaderEffects v1).persistedFiles = [] ∧
    (timeReaderEffects v1).envMutations = [] := by
  refine ⟨?_, by rw [hv], rfl, rfl, rfl, rfl⟩
  rw [fillLoop_spec BUFSIZE 0 init1 i (Nat.sub_zero BUFSIZE),
    fillLoop_spec BUFSIZE 0 init2 i (Nat.sub_zero BUFSIZE),
    if_pos ⟨Nat.zero_le i, hi⟩, if_pos ⟨Nat.zero_le i, hi⟩]

theorem run_independence_witness :
    (0 < BUFSIZE ∧ (5 : Nat) = 5) ∧
    (fillLoop 0 (fun _ => none) 0 = fillLoop 0 (fun _ => some 7) 0 ∧
     timeReaderRun 5 = timeReaderRun 5 ∧
     bufferFillEffects.persistedFiles = [] ∧
     bufferFillEffects.envMutations = [] ∧
     (timeReaderEffects 5).persistedFiles = [] ∧
     (timeReaderEffects 5).envMutations = []) :=
  ⟨⟨by rw [BUFSIZE_eq]; norm_num, rfl⟩,
   run_independence (fun _ => none) (fun _ => some 7) 0
     (by rw [BUFSIZE_eq]; norm_num) 5 5 rfl⟩

/-- Claim C8: both programs run to completion; BufferFill's loop performs
exactly 1,048,576 iterations (one store each) and the loop body is not entered
once the index reaches `BUFSIZE`. -/
theorem run_to_completion :
    fillTrace.length = 1048576 ∧ fillTraceFrom BUFSIZE = [] := by
  refine ⟨fillTrace_length, ?_⟩
  rw [fillTraceFrom, dif_neg (lt_irrefl BUFSIZE)]

/-- Claim C9: on normal completion BufferFill writes nothing to standard
output, persists nothing, mutates no environment, exits with status 0, and its
only observable effect is the (non-empty) memory write traffic of the fill
loop. -/
theorem bufferFill_frame_effects :
    bufferFillEffects.stdout = "" ∧
    bufferFillEffects.exitCode = 0 ∧
    bufferFillEffects.persistedFiles = [] ∧
    bufferFillEffects.envMutations = [] ∧
    bufferFillEffects.memWrites = fillTrace ∧
    bufferFillEffects.memWrites ≠ [] := by
  refine ⟨rfl, rfl, rfl, rfl, rfl, ?_⟩
  intro h
  have hlen := fillTrace_length
  rw [show fillTrace = bufferFillEffects.memWrites from rfl, h] at hlen
  simp at hlen

/-- Claim C10: every store the fill loop performs targets an offset strictly
below 1,048,576, the same bound that sizes the allocation, so no write falls
outside the buffer. -/
theorem bufferFill_writes_in_bounds (w : Nat × Nat) (hw : w ∈ fillTrace) :
    w.1 < 1048576 := by
  rw [fillTrace_eq] at hw
  obtain ⟨j, hj, rfl⟩ := List.mem_map.mp hw
  have hjB := List.mem_range.mp hj
  have hB := BUFSIZE_eq
  show j < 1048576
  omega

theorem bufferFill_writes_in_bounds_witness :
    (0, 0) ∈ fillTrace ∧ ((0, 0) : Nat × Nat).1 < 1048576 :=
  ⟨zero_mem_fillTrace, bufferFill_writes_in_bounds (0, 0) zero_mem_fillTrace⟩
